import Mathlib

/-!
Verification of the chkmd metadata checker (src/main.go).

The Go program is shallowly embedded: Go strings become `String`/`List Char`,
Go maps with string keys become association lists looked up with a default of
`""` (matching Go's zero-value map read), the global `mimeTypes` set becomes an
explicit `List String` parameter, and fallible functions return
`Except`/`Option`.  The external `exiftool` subprocess is represented by its
outcome (`Except String String`: the error, or the captured standard output).
-/

/-- Lookup in a Go `map[string]string`: the zero value `""` is returned for a
missing key.  Go map writes overwrite, which the model realises by prepending
and taking the first match. -/
def mapGet (m : List (String × String)) (k : String) : String :=
  ((m.find? (fun kv => kv.1 == k)).map Prod.snd).getD ""

/-- The ASCII white-space characters trimmed by Go's `strings.TrimSpace`
(the sources only ever carry ASCII dates, so the Unicode cases are omitted). -/
def isSpaceChar (c : Char) : Bool :=
  c == ' ' || c == '\t' || c == '\n' || c == '\r' || c == '\x0b' || c == '\x0c'

/-- `strings.TrimSpace` on a character list. -/
def trimSpace (cs : List Char) : List Char :=
  ((cs.dropWhile isSpaceChar).reverse.dropWhile isSpaceChar).reverse

/-- `strings.TrimSpace` on a `String`. -/
def trimS (s : String) : String :=
  String.mk (trimSpace s.data)

/-- `strings.Contains(d, c)` for a one-character needle. -/
def hasChar (cs : List Char) (c : Char) : Bool :=
  cs.any (fun x => x == c)

/-!
## Date parsing (`parseDate`, main.go lines 478-506)

The Go code selects one of the `exiftool`-style layouts

  exifDateOnly     = "2006:01:02"
  exifDate         = "2006:01:02 15:04:05"
  exifNanoDate     = "2006:01:02 15:04:05.00"
  exifDateZone     = "2006:01:02 15:04:05-07:00"
  exifNanoDateZone = "2006:01:02 15:04:05.00-07:00"

by testing the trimmed string for a '.' and for a '-' anywhere, calls
`time.Parse` with the selected layout and falls back to the date-only layout
when that fails.  `time.Parse` for these fixed-width layouts is modelled as an
exact character-shaped match (digits in the digit positions, the literal
separators, a '+' or '-' where the layout has an offset sign) together with
Go's range validation of the calendar fields.  The zone digits are not
range-checked, matching Go, which accepts any two-digit offset components.
-/

/-- One position of a fixed-width `time.Parse` layout. -/
inductive PatC
  | digit
  | lit (c : Char)
  | sign
deriving DecidableEq

/-- Whether one input character is acceptable at a layout position. -/
def charMatch : PatC → Char → Bool
  | PatC.digit, c => c.isDigit
  | PatC.lit x, c => c == x
  | PatC.sign, c => c == '+' || c == '-'

/-- Exact match of a whole fixed-width layout against the whole input. -/
def matchPat : List PatC → List Char → Bool
  | [], [] => true
  | p :: ps, c :: cs => charMatch p c && matchPat ps cs
  | _, _ => false

/-- Layout shape of `exifDateOnly` ("2006:01:02"). -/
def patDateOnly : List PatC :=
  [PatC.digit, PatC.digit, PatC.digit, PatC.digit, PatC.lit ':',
   PatC.digit, PatC.digit, PatC.lit ':', PatC.digit, PatC.digit]

/-- Layout shape of the " 15:04:05" clock part. -/
def patHMS : List PatC :=
  [PatC.lit ' ', PatC.digit, PatC.digit, PatC.lit ':',
   PatC.digit, PatC.digit, PatC.lit ':', PatC.digit, PatC.digit]

/-- Layout shape of `exifDate`. -/
def patDate : List PatC := patDateOnly ++ patHMS

/-- Layout shape of the ".00" fractional-seconds part. -/
def patFrac : List PatC := [PatC.lit '.', PatC.digit, PatC.digit]

/-- Layout shape of `exifNanoDate`. -/
def patNano : List PatC := patDate ++ patFrac

/-- Layout shape of the "-07:00" offset part; `time.Parse` accepts either
sign character here. -/
def patZone : List PatC :=
  [PatC.sign, PatC.digit, PatC.digit, PatC.lit ':', PatC.digit, PatC.digit]

/-- Layout shape of `exifDateZone`. -/
def patDateZone : List PatC := patDate ++ patZone

/-- Layout shape of `exifNanoDateZone`. -/
def patNanoZone : List PatC := patNano ++ patZone

/-- The five layouts known to `parseDate`. -/
inductive LayoutKind
  | dateOnly
  | date
  | nano
  | dateZone
  | nanoZone
deriving DecidableEq, BEq

/-- The shape of each layout. -/
def patOf : LayoutKind → List PatC
  | LayoutKind.dateOnly => patDateOnly
  | LayoutKind.date => patDate
  | LayoutKind.nano => patNano
  | LayoutKind.dateZone => patDateZone
  | LayoutKind.nanoZone => patNanoZone

/-- Numeric value of an ASCII digit character. -/
def digitVal (c : Char) : Nat := c.toNat - 48

/-- Two-digit number starting at position `i`. -/
def num2 (d : List Char) (i : Nat) : Nat :=
  10 * digitVal (d.getD i '0') + digitVal (d.getD (i + 1) '0')

/-- Four-digit number starting at position `i`. -/
def num4 (d : List Char) (i : Nat) : Nat :=
  100 * num2 d i + num2 d (i + 2)

/-- Gregorian leap-year test, as in Go's `time` package. -/
def isLeap (y : Nat) : Bool :=
  y % 4 == 0 && (!(y % 100 == 0) || y % 400 == 0)

/-- Days in a month, as validated by `time.Parse`. -/
def daysIn (y m : Nat) : Nat :=
  if m == 2 then (if isLeap y then 29 else 28)
  else if m == 4 || m == 6 || m == 9 || m == 11 then 30
  else 31

/-- `time.Parse` range validation of the year/month/day fields (positions
0-3, 5-6 and 8-9 in every layout). -/
def validYMD (d : List Char) : Bool :=
  decide (1 ≤ num2 d 5 ∧ num2 d 5 ≤ 12 ∧ 1 ≤ num2 d 8 ∧
    num2 d 8 ≤ daysIn (num4 d 0) (num2 d 5))

/-- `time.Parse` range validation of the clock fields (positions 11-12,
14-15 and 17-18 in the timed layouts). -/
def validHMS (d : List Char) : Bool :=
  decide (num2 d 11 ≤ 23 ∧ num2 d 14 ≤ 59 ∧ num2 d 17 ≤ 59)

/-- The validation applied for each layout. -/
def validOf : LayoutKind → List Char → Bool
  | LayoutKind.dateOnly, d => validYMD d
  | _, d => validYMD d && validHMS d

/-- Position of the offset sign for the zoned layouts. -/
def zoneIdx : LayoutKind → Nat
  | LayoutKind.dateZone => 19
  | LayoutKind.nanoZone => 22
  | _ => 0

/-- The value `time.Parse` produces: broken-down calendar fields plus the
fixed zone offset (absent for the unzoned layouts, which Go reads as UTC). -/
structure GoTime where
  year : Nat
  month : Nat
  day : Nat
  hour : Nat
  minute : Nat
  second : Nat
  frac : Nat
  hasZone : Bool
  offNeg : Bool
  offH : Nat
  offM : Nat
deriving DecidableEq

/-- Field extraction for a layout whose shape already matched. -/
def extract (k : LayoutKind) (d : List Char) : GoTime :=
  { year := num4 d 0
    month := num2 d 5
    day := num2 d 8
    hour := if k == LayoutKind.dateOnly then 0 else num2 d 11
    minute := if k == LayoutKind.dateOnly then 0 else num2 d 14
    second := if k == LayoutKind.dateOnly then 0 else num2 d 17
    frac := if k == LayoutKind.nano || k == LayoutKind.nanoZone then num2 d 20 else 0
    hasZone := k == LayoutKind.dateZone || k == LayoutKind.nanoZone
    offNeg := d.getD (zoneIdx k) ' ' == '-'
    offH := if k == LayoutKind.dateZone || k == LayoutKind.nanoZone then num2 d (zoneIdx k + 1) else 0
    offM := if k == LayoutKind.dateZone || k == LayoutKind.nanoZone then num2 d (zoneIdx k + 4) else 0 }

/-- `time.Parse(layout, d)` for one of the five fixed layouts. -/
def timeParse (k : LayoutKind) (d : List Char) : Option GoTime :=
  if matchPat (patOf k) d && validOf k d then some (extract k d) else none

/-- The layout `parseDate` selects from its two `strings.Contains` probes
(main.go lines 488-499). -/
def dispatchKind (d : List Char) : LayoutKind :=
  if hasChar d '.' then
    (if hasChar d '-' then LayoutKind.nanoZone else LayoutKind.nano)
  else
    (if hasChar d '-' then LayoutKind.dateZone else LayoutKind.date)

/-- `parseDate` (main.go lines 478-506): trim, select a timed layout, parse,
and fall back to the date-only layout on failure. -/
def goParseDate (s : String) : Except String GoTime :=
  let d := trimSpace s.data
  match timeParse (dispatchKind d) d with
  | some t => Except.ok t
  | none =>
    match timeParse LayoutKind.dateOnly d with
    | some t => Except.ok t
    | none => Except.error "parsing time error"

/-- Success test for an `Except` result, as Go's `err == nil`. -/
def isOkE (r : Except String GoTime) : Bool :=
  match r with
  | Except.ok _ => true
  | Except.error _ => false

/-!
## The metadata record (`exif`, main.go lines 110-125)
-/

/-- The `exif` structure: the namespace-less file-info map plus the three
metadata namespaces, each a `map[string]string`. -/
structure exif where
  Data : List (String × String)
  Exif : List (String × String)
  IPTC : List (String × String)
  XMP : List (String × String)
deriving DecidableEq

/-- `newExif`: all four maps empty. -/
def newExif : exif := ⟨[], [], [], []⟩

/-- `exif.DateCreated` (main.go lines 142-161): the trimmed concatenation of
IPTC DateCreated and TimeCreated, else Exif DateTimeOriginal, else XMP
DateCreated, handed to `parseDate`. -/
def exif.DateCreated (e : exif) : Except String GoTime :=
  let d := trimS (mapGet e.IPTC "DateCreated" ++ " " ++ mapGet e.IPTC "TimeCreated")
  let d := if d = "" then mapGet e.Exif "DateTimeOriginal" else d
  let d := if d = "" then mapGet e.XMP "DateCreated" else d
  goParseDate d

/-- `exif.HasDateCreated` (main.go lines 164-170): whether `DateCreated`
returned without error. -/
def exif.HasDateCreated (e : exif) : Bool :=
  match e.DateCreated with
  | Except.ok _ => true
  | Except.error _ => false

/-- `exif.Keywords` (main.go lines 176-189). -/
def exif.Keywords (e : exif) : String :=
  let kw := mapGet e.IPTC "Keywords"
  if kw = "" then mapGet e.XMP "Subject" else kw

/-- `exif.HasKeywords`. -/
def exif.HasKeywords (e : exif) : Bool := e.Keywords != ""

/-- `exif.Description` (main.go lines 201-217). -/
def exif.Description (e : exif) : String :=
  let d := mapGet e.IPTC "Caption-Abstract"
  let d := if d = "" then mapGet e.Exif "ImageDescription" else d
  if d = "" then mapGet e.XMP "Description" else d

/-- `exif.HasDescription`. -/
def exif.HasDescription (e : exif) : Bool := e.Description != ""

/-- Length (in characters) of `filepath.Ext` scanning a reversed name: stop
at a path separator, count up to and including the last '.'. -/
def extLenRev : List Char → Nat
  | [] => 0
  | c :: rest =>
    if c = '.' then 1
    else if c = '/' then 0
    else
      match extLenRev rest with
      | 0 => 0
      | n => n + 1

/-- `name[0 : len(name)-len(filepath.Ext(name))]` from `exif.NasaID`. -/
def stripExtension (name : List Char) : List Char :=
  name.take (name.length - extLenRev name.reverse)

/-- `exif.NasaID` (main.go lines 236-269): five namespace fields, then the
file name with its extension stripped. -/
def exif.NasaID (e : exif) : String :=
  let id := mapGet e.IPTC "OriginalTransmissionReference"
  let id := if id = "" then mapGet e.IPTC "JobID" else id
  let id := if id = "" then mapGet e.Exif "ImageUniqueID" else id
  let id := if id = "" then mapGet e.XMP "Identifier" else id
  let id := if id = "" then mapGet e.XMP "TransmissionReference" else id
  if id = "" then String.mk (stripExtension (mapGet e.Data "FileName").data) else id

/-- `exif.Title` (main.go lines 281-299). -/
def exif.Title (e : exif) : String :=
  let t := mapGet e.IPTC "ObjectName"
  let t := if t = "" then mapGet e.IPTC "Headline" else t
  if t = "" then mapGet e.XMP "Title" else t

/-- `exif.Location` (main.go lines 317-351). -/
def exif.Location (e : exif) : String :=
  let city := if mapGet e.IPTC "City" = "" then mapGet e.XMP "City" else mapGet e.IPTC "City"
  let region := if mapGet e.IPTC "Province-State" = "" then mapGet e.XMP "State"
    else mapGet e.IPTC "Province-State"
  let country := if mapGet e.IPTC "Country-PrimaryLocationName" = "" then mapGet e.XMP "Country"
    else mapGet e.IPTC "Country-PrimaryLocationName"
  let addr := (if city = "" then [] else [city]) ++ (if region = "" then [] else [region]) ++
    (if country = "" then [] else [country])
  String.intercalate ", " addr

/-- `strings.Split(t, "/")[0]`: everything before the first slash. -/
def beforeSlash (t : String) : String :=
  String.mk (t.data.takeWhile (fun c => c != '/'))

/-- `exif.MediaType` (main.go lines 364-379), with the global `mimeTypes` set
passed explicitly as `mt`.  Note the membership test is applied to XMP Format
when that is non-empty, not to the file-info MIMEType. -/
def exif.MediaType (e : exif) (mt : List String) : String :=
  let t := mapGet e.XMP "Format"
  let t := if t = "" then mapGet e.Data "MIMEType" else t
  if mt.contains t then
    let t2 := beforeSlash t
    if t2 = "audio" || t2 = "image" || t2 = "video" then t2 else ""
  else ""

/-- `exif.FileFormat` (main.go lines 391-397). -/
def exif.FileFormat (e : exif) (mt : List String) : String :=
  if mt.contains (mapGet e.Data "MIMEType") then mapGet e.Data "FileType" else ""

/-- `exif.Photographer` (main.go lines 408-424). -/
def exif.Photographer (e : exif) : String :=
  let p := mapGet e.IPTC "By-line"
  let p := if p = "" then mapGet e.Exif "Artist" else p
  if p = "" then mapGet e.XMP "Artist" else p

/-!
## Report rows (main.go lines 76-93 and 431-474)

The Go row builders send a `[]string` on a channel; the model returns the
list of rows sent, so that "exactly one row is emitted" is the statement
that the returned list has length one.
-/

/-- The CSV header (main.go lines 76-93): sixteen columns. -/
def csvHeader : List String :=
  ["Path", "Status", "Reason", "NASA ID", "Title", "508 Description",
   "Description", "Date Created", "Location", "Keywords", "Media Type",
   "File Format", "Center", "Secondary Creator Credit", "Photographer",
   "Album"]

/-- The `na` placeholder (main.go line 63). -/
def na : String := "N/A"

/-- Zero-pad a number to two digits. -/
def pad2 (n : Nat) : String :=
  if n < 10 then "0" ++ toString n else toString n

/-- Zero-pad a number to four digits. -/
def pad4 (n : Nat) : String :=
  if n < 10 then "000" ++ toString n
  else if n < 100 then "00" ++ toString n
  else if n < 1000 then "0" ++ toString n
  else toString n

/-- `dto.Format(time.RFC3339)` on a parsed value: the fraction is dropped and
a zero offset prints as "Z", as in Go. -/
def formatRFC3339 (t : GoTime) : String :=
  pad4 t.year ++ "-" ++ pad2 t.month ++ "-" ++ pad2 t.day ++ "T" ++
  pad2 t.hour ++ ":" ++ pad2 t.minute ++ ":" ++ pad2 t.second ++
  (if t.hasZone && !(t.offH == 0 && t.offM == 0) then
    (if t.offNeg then "-" else "+") ++ pad2 t.offH ++ ":" ++ pad2 t.offM
  else "Z")

/-- `exif.MakeErrorRow` (main.go lines 433-439): path, "Rejected", the error
text, then one empty cell per remaining header column. -/
def exif.MakeErrorRow (e : exif) (p err : String) : List String :=
  [p, "Rejected", err] ++ (csvHeader.drop 3).map (fun _ => "")

/-- The sixteen cells of a normal row (main.go lines 456-472). -/
def rowCells (e : exif) (mt : List String) (p status reason dc : String) : List String :=
  [p, status, reason, e.NasaID, e.Title, na, e.Description, dc, e.Location,
   e.Keywords, e.MediaType mt, e.FileFormat mt, na, na, e.Photographer, na]

/-- `exif.MakeRow` (main.go lines 443-474): format the creation date when
present (falling into the error row should that parse fail), then emit the
sixteen-cell row. -/
def exif.MakeRow (e : exif) (mt : List String) (p status reason : String) :
    List (List String) :=
  if e.HasDateCreated then
    match e.DateCreated with
    | Except.error err => [e.MakeErrorRow p err]
    | Except.ok dto => [rowCells e mt p status reason (formatRFC3339 dto)]
  else
    [rowCells e mt p status reason ""]

/-- The body of the `processFiles` loop for one path (main.go lines 593-613),
given the outcome of `getExifData`.  The boolean records which statistics
counter is incremented: `true` for Accept, `false` for Reject. -/
def processFilesStep (mt : List String) (p : String) (res : Except String exif) :
    Bool × List (List String) :=
  match res with
  | Except.error err => (false, [newExif.MakeErrorRow p err])
  | Except.ok e =>
    if e.HasDateCreated && (e.HasKeywords || e.HasDescription) then
      (true, e.MakeRow mt p "Accepted" "")
    else
      (false, e.MakeRow mt p "Incomplete" "Minimum metadata not provided")

/-!
## Collaborator-output parsing (`getExifData`, main.go lines 509-543)

For each output line the Go code evaluates

  tk := strings.TrimSpace(line[0:48])
  t := strings.TrimSpace(tk[0:15])
  k := strings.TrimSpace(tk[16:])
  v := strings.TrimSpace(line[50:])

A Go string slice `s[i:j]` panics when `j > len(s)`, so a line shorter than
50 bytes, or one whose trimmed first 48 bytes are shorter than 16, crashes
the program.  `goLineInBounds` decides whether all four slices are in bounds;
`parseLine` returns `none` exactly when the Go code panics.
-/

/-- Whether the slice expressions of the `getExifData` loop body stay within
the line's bounds; `false` means the Go program panics. -/
def goLineInBounds (line : List Char) : Bool :=
  decide (50 ≤ line.length ∧ 16 ≤ (trimSpace (line.take 48)).length)

/-- One line of the `getExifData` loop: `none` models the slice-bounds panic,
`some (t, k, v)` the namespace tag, key and value. -/
def parseLine (line : List Char) : Option (String × String × String) :=
  if goLineInBounds line then
    let tk := trimSpace (line.take 48)
    some (String.mk (trimSpace (tk.take 15)), String.mk (trimSpace (tk.drop 16)),
      String.mk (trimSpace (line.drop 50)))
  else
    none

/-- The characters of the cutset of `strings.Trim(out, " \r\n")`. -/
def isCutChar (c : Char) : Bool := c == ' ' || c == '\r' || c == '\n'

/-- `strings.Trim(out, " \r\n")`. -/
def trimCutset (cs : List Char) : List Char :=
  ((cs.dropWhile isCutChar).reverse.dropWhile isCutChar).reverse

/-- `strings.Split(s, "\n")`. -/
def splitNl : List Char → List (List Char)
  | [] => [[]]
  | c :: rest =>
    let r := splitNl rest
    if c = '\n' then [] :: r
    else
      match r with
      | [] => [[c]]
      | h :: t => (c :: h) :: t

/-- The `switch` of the `getExifData` loop storing one parsed line into the
record, or `none` when parsing that line panics. -/
def storeLine (e : exif) (line : List Char) : Option exif :=
  match parseLine line with
  | none => none
  | some (t, k, v) =>
    some (if t = "[EXIF]" then { e with Exif := (k, v) :: e.Exif }
      else if t = "[IPTC]" then { e with IPTC := (k, v) :: e.IPTC }
      else if t = "[XMP]" then { e with XMP := (k, v) :: e.XMP }
      else { e with Data := (k, v) :: e.Data })

/-- `getExifData` (main.go lines 509-543) over the subprocess outcome: on
subprocess failure, the empty record and the error; on success, the parsed
record (`none` for the whole result models the per-line panic). -/
def getExifData (res : Except String String) : Option (exif × Option String) :=
  match res with
  | Except.error err => some (newExif, some err)
  | Except.ok out =>
    ((splitNl (trimCutset out.data)).foldlM storeLine newExif).map (fun e => (e, none))

/-- The full body of the `processFiles` loop for one dequeued path
(main.go lines 593-613) including the `getExifData` call itself, over the
subprocess outcome for that path.  The outer `none` models the slice-bounds
panic inside `getExifData`, under which the worker crashes and no row at all
is emitted for the path. -/
def processFilesPath (mt : List String) (p : String) (sub : Except String String) :
    Option (Bool × List (List String)) :=
  match getExifData sub with
  | none => none
  | some (e, some err) => some (false, [e.MakeErrorRow p err])
  | some (e, none) =>
    if e.HasDateCreated && (e.HasKeywords || e.HasDescription) then
      some (true, e.MakeRow mt p "Accepted" "")
    else
      some (false, e.MakeRow mt p "Incomplete" "Minimum metadata not provided")

/-!
## The concurrent pipeline statistics (main.go lines 97-102, 572-585, 590-615)

The scanner (one thread) and the workers mutate the four counters through
atomic increments.  The model is an interleaving state machine: the scanner's
per-file micro-operations happen in the order of `makeWalker` — increment
Total, then (for a relevant file) send to the channel, then increment
Relevant — while a worker may, at any point, consume a queued path and
increment exactly one of Accept or Reject (`processFiles`).  The queue
capacity and the number of workers do not affect which counter states are
reachable, so the queue is counted abstractly.
-/

/-- Where the scanner is inside `makeWalker`'s body for the current file:
`counted` is after the Total increment, `sent` is after `files <- p` but
before the Relevant increment. -/
inductive ScanPhase
  | idle
  | counted
  | sent
deriving DecidableEq

/-- Ghost state of the pipeline.  Each counter field records the number of
`atomic.AddInt32(&stats.X, 1)` calls performed so far on the corresponding
`int32` cell of the `statistics` struct, plus the channel occupancy and the
scanner's position.  The Go cells start at zero and are only ever incremented
by one with wrapping 32-bit addition, so after `n` increments a cell holds
exactly the signed wrapped value `int32Of n`; statements about the program's
counter values are therefore made through `int32Of`. -/
structure PState where
  total : Nat
  relevant : Nat
  reject : Nat
  accept : Nat
  queue : Nat
  phase : ScanPhase
deriving DecidableEq

/-- The signed 32-bit value held by a `statistics` cell after `n` wrapping
`atomic.AddInt32` increments from zero (4294967296 = 2^32 and
2147483648 = 2^31): the count reduced modulo 2^32, read as a signed int32. -/
def int32Of (n : Nat) : Int :=
  if n % 4294967296 < 2147483648 then ((n % 4294967296 : Nat) : Int)
  else ((n % 4294967296 : Nat) : Int) - 4294967296

/-- One atomic step of the scanner or of a worker. -/
inductive PStep : PState → PState → Prop
  | count (s : PState) : s.phase = ScanPhase.idle →
      PStep s { s with total := s.total + 1, phase := ScanPhase.counted }
  | skip (s : PState) : s.phase = ScanPhase.counted →
      PStep s { s with phase := ScanPhase.idle }
  | send (s : PState) : s.phase = ScanPhase.counted →
      PStep s { s with queue := s.queue + 1, phase := ScanPhase.sent }
  | relInc (s : PState) : s.phase = ScanPhase.sent →
      PStep s { s with relevant := s.relevant + 1, phase := ScanPhase.idle }
  | procAccept (s : PState) : 0 < s.queue →
      PStep s { s with queue := s.queue - 1, accept := s.accept + 1 }
  | procReject (s : PState) : 0 < s.queue →
      PStep s { s with queue := s.queue - 1, reject := s.reject + 1 }

/-- States reachable from the all-zero initial state under any interleaving. -/
inductive Reachable : PState → Prop
  | init : Reachable ⟨0, 0, 0, 0, 0, ScanPhase.idle⟩
  | step {s s' : PState} : Reachable s → PStep s s' → Reachable s'

/-- 1 exactly in the window between `files <- p` and the Relevant increment. -/
def sentFlag : ScanPhase → Nat
  | ScanPhase.sent => 1
  | _ => 0

/-- 1 exactly in the window between the Total increment and the branch. -/
def countedFlag : ScanPhase → Nat
  | ScanPhase.counted => 1
  | _ => 0

/-!
## Helper lemmas
-/

/-- `hasChar` agrees with list membership. -/
theorem hasChar_iff (cs : List Char) (c : Char) : hasChar cs c = true ↔ c ∈ cs := by
  simp [hasChar, List.any_eq_true, beq_iff_eq]

/-- Every character of a matched string is accepted by some layout position. -/
theorem matchPat_mem_char {ps : List PatC} {cs : List Char}
    (h : matchPat ps cs = true) : ∀ c ∈ cs, ∃ p ∈ ps, charMatch p c = true := by
  induction ps generalizing cs with
  | nil =>
    cases cs with
    | nil => intro c hc; cases hc
    | cons c cs => simp [matchPat] at h
  | cons p ps ih =>
    cases cs with
    | nil => simp [matchPat] at h
    | cons c cs =>
      simp only [matchPat, Bool.and_eq_true] at h
      intro x hx
      rcases List.mem_cons.mp hx with hx | hx
      · exact ⟨p, List.mem_cons_self _ _, hx ▸ h.1⟩
      · obtain ⟨q, hq, hcm⟩ := ih h.2 x hx
        exact ⟨q, List.mem_cons_of_mem _ hq, hcm⟩

/-- Every layout position of a matched string accepted some character of it. -/
theorem matchPat_pat_mem {ps : List PatC} {cs : List Char}
    (h : matchPat ps cs = true) : ∀ p ∈ ps, ∃ c ∈ cs, charMatch p c = true := by
  induction ps generalizing cs with
  | nil => intro p hp; cases hp
  | cons q ps ih =>
    cases cs with
    | nil => simp [matchPat] at h
    | cons c cs =>
      simp only [matchPat, Bool.and_eq_true] at h
      intro p hp
      rcases List.mem_cons.mp hp with hp | hp
      · exact ⟨c, List.mem_cons_self _ _, hp ▸ h.1⟩
      · obtain ⟨x, hx, hcm⟩ := ih h.2 p hp
        exact ⟨x, List.mem_cons_of_mem _ hx, hcm⟩

/-- A character no layout position accepts cannot occur in a matched string. -/
theorem hasChar_false_of_match {ps : List PatC} {cs : List Char} {c : Char}
    (h : matchPat ps cs = true) (hno : ∀ p ∈ ps, charMatch p c = false) :
    hasChar cs c = false := by
  cases hch : hasChar cs c with
  | false => rfl
  | true =>
    obtain ⟨p, hp, hcm⟩ := matchPat_mem_char h c ((hasChar_iff cs c).mp hch)
    rw [hno p hp] at hcm
    exact absurd hcm (by simp)

/-- A literal layout position forces its character into the matched string. -/
theorem hasChar_true_of_match {ps : List PatC} {cs : List Char} {c : Char}
    (h : matchPat ps cs = true) (hp : PatC.lit c ∈ ps) : hasChar cs c = true := by
  obtain ⟨x, hx, hcm⟩ := matchPat_pat_mem h (PatC.lit c) hp
  have hxc : x = c := by simpa [charMatch] using hcm
  exact (hasChar_iff cs c).mpr (hxc ▸ hx)

/-- `timeParse` succeeds exactly when the shape matches and the calendar
fields are in range. -/
theorem timeParse_isSome_iff (k : LayoutKind) (d : List Char) :
    (timeParse k d).isSome = true ↔
      (matchPat (patOf k) d = true ∧ validOf k d = true) := by
  unfold timeParse
  split <;> simp_all

/-- `goParseDate` succeeds exactly when the dispatched layout or the
date-only fallback parses the trimmed string. -/
theorem goParseDate_isOk_iff (s : String) :
    isOkE (goParseDate s) = true ↔
      ((timeParse (dispatchKind (trimSpace s.data)) (trimSpace s.data)).isSome = true ∨
        (timeParse LayoutKind.dateOnly (trimSpace s.data)).isSome = true) := by
  unfold goParseDate
  cases h1 : timeParse (dispatchKind (trimSpace s.data)) (trimSpace s.data) <;>
    cases h2 : timeParse LayoutKind.dateOnly (trimSpace s.data) <;>
      simp [h1, h2, isOkE]

/-- The Date Created cell as `MakeRow` computes it. -/
def dcCell (e : exif) : String :=
  match e.DateCreated with
  | Except.ok t => formatRFC3339 t
  | Except.error _ => ""

/-- `MakeRow` always emits exactly the normal sixteen-cell row: the error
branch guarded by `HasDateCreated` is dead code, since `HasDateCreated` is
defined as `DateCreated` succeeding. -/
theorem MakeRow_eq_normal (e : exif) (mt : List String) (p status reason : String) :
    e.MakeRow mt p status reason = [rowCells e mt p status reason (dcCell e)] := by
  unfold exif.MakeRow exif.HasDateCreated dcCell
  cases h : e.DateCreated <;> simp [h]

/-- The invariant that every interleaving of the pipeline preserves: the
processed-plus-queued paths balance the Relevant counter up to the scanner's
in-flight file, and the relevant-side quantities never exceed Total. -/
theorem statsInv {st : PState} (h : Reachable st) :
    st.accept + st.reject + st.queue = st.relevant + sentFlag st.phase ∧
      st.relevant + sentFlag st.phase + countedFlag st.phase ≤ st.total := by
  induction h with
  | init => simp [sentFlag, countedFlag]
  | step hr hs ih =>
    cases hs with
    | count hp => simp only [hp, sentFlag, countedFlag] at ih ⊢; omega
    | skip hp => simp only [hp, sentFlag, countedFlag] at ih ⊢; omega
    | send hp => simp only [hp, sentFlag, countedFlag] at ih ⊢; omega
    | relInc hp => simp only [hp, sentFlag, countedFlag] at ih ⊢; omega
    | procAccept hp => simp only [sentFlag, countedFlag] at ih ⊢; omega
    | procReject hp => simp only [sentFlag, countedFlag] at ih ⊢; omega

/-- Below 2^31 increments the int32 cell holds the true count. -/
theorem int32Of_of_lt {n : Nat} (h : n < 2147483648) : int32Of n = (n : Int) := by
  unfold int32Of
  have h2 : n % 4294967296 = n := Nat.mod_eq_of_lt (by omega)
  rw [h2, if_pos h]

/-- The cell model really wraps: one more increment past 2^31 - 1 drives the
int32 value negative, exactly as `atomic.AddInt32` does. -/
theorem int32Of_wraps : int32Of 2147483648 = -2147483648 := by decide

/-!
## The claims
-/

/-- C10: `HasDateCreated` is true exactly when `DateCreated` succeeds on the
same record, so the error branch inside `MakeRow` is unreachable and `MakeRow`
always emits the normal sixteen-cell row. -/
theorem c10_hasDateCreated_consistent (e : exif) (mt : List String)
    (p status reason : String) :
    (e.HasDateCreated = true ↔ ∃ t, e.DateCreated = Except.ok t) ∧
    e.MakeRow mt p status reason = [rowCells e mt p status reason (dcCell e)] ∧
    (rowCells e mt p status reason (dcCell e)).length = 16 := by
  refine ⟨?_, MakeRow_eq_normal e mt p status reason, rfl⟩
  unfold exif.HasDateCreated
  cases h : e.DateCreated <;> simp [h]

/-- C4: the totality claim fails on the code through the same slicing panic
as C3.  A dequeued path whose extraction panics — here `exiftool` exiting
successfully with empty output — makes the worker crash and emit zero rows
(the `none` of the first conjunct), refuting "exactly one row whatever the
outcome"; on every path where `getExifData` returns, the worker does emit
exactly one row (second conjunct: whenever the step produces an outcome, its
row list has length one). -/
theorem c4_one_row_unless_panic :
    processFilesPath [] "file" (Except.ok "") = none ∧
    (∀ (mt : List String) (p : String) (sub : Except String String),
      ((processFilesPath mt p sub).map (fun out => out.2.length)).getD 1 = 1) := by
  constructor
  · rfl
  · intro mt p sub
    cases sub with
    | error err => rfl
    | ok out =>
      unfold processFilesPath
      cases hg : getExifData (Except.ok out) with
      | none => rfl
      | some r =>
        obtain ⟨e, oerr⟩ := r
        cases oerr with
        | some err => rfl
        | none =>
          simp only [MakeRow_eq_normal]
          split <;> rfl

/-- C8: on subprocess failure the record builder returns the empty record and
the error, and the worker converts it into the degraded row of the path,
"Rejected", the error text and thirteen empty cells. -/
theorem c8_degraded_error_row (mt : List String) (p err : String) :
    getExifData (Except.error err) = some (newExif, some err) ∧
    (processFilesStep mt p (Except.error err)).2 =
      [p :: "Rejected" :: err :: List.replicate 13 ""] ∧
    ((processFilesStep mt p (Except.error err)).2.headD []).length = 16 := by
  exact ⟨rfl, rfl, rfl⟩

/-- C2: when the trimmed concatenation of IPTC DateCreated and TimeCreated is
non-empty, `DateCreated` parses exactly that string, whatever the Exif and XMP
maps hold; when it is empty, the resolution falls back to Exif
DateTimeOriginal and then to XMP DateCreated. -/
theorem c2_dateCreated_precedence (e : exif) :
    (trimS (mapGet e.IPTC "DateCreated" ++ " " ++ mapGet e.IPTC "TimeCreated") ≠ "" →
      e.DateCreated = goParseDate
        (trimS (mapGet e.IPTC "DateCreated" ++ " " ++ mapGet e.IPTC "TimeCreated"))) ∧
    (trimS (mapGet e.IPTC "DateCreated" ++ " " ++ mapGet e.IPTC "TimeCreated") = "" →
      mapGet e.Exif "DateTimeOriginal" ≠ "" →
      e.DateCreated = goParseDate (mapGet e.Exif "DateTimeOriginal")) ∧
    (trimS (mapGet e.IPTC "DateCreated" ++ " " ++ mapGet e.IPTC "TimeCreated") = "" →
      mapGet e.Exif "DateTimeOriginal" = "" →
      e.DateCreated = goParseDate (mapGet e.XMP "DateCreated")) := by
  unfold exif.DateCreated
  refine ⟨fun h1 => ?_, fun h1 h2 => ?_, fun h1 h2 => ?_⟩
  · simp [h1]
  · simp [h1, h2]
  · simp [h1, h2]

/-- The record used to witness C2: the IPTC pair is set and both fallbacks
hold competing values. -/
def eC2 : exif :=
  ⟨[], [("DateTimeOriginal", "1999:12:31 23:59:59")],
   [("DateCreated", "2015:01:09"), ("TimeCreated", "01:32:16")],
   [("DateCreated", "2001:01:01")]⟩

/-- C2 witness: on `eC2` the hypothesis holds and the date resolves from the
IPTC pair. -/
theorem c2_witness :
    eC2.DateCreated = goParseDate
      (trimS (mapGet eC2.IPTC "DateCreated" ++ " " ++ mapGet eC2.IPTC "TimeCreated")) :=
  (c2_dateCreated_precedence eC2).1 (by decide)

/-- C1: with successful extraction, the emitted row is Accepted with empty
reason exactly when `HasDateCreated` holds together with `HasKeywords` or
`HasDescription`; otherwise it is Incomplete with the fixed reason; with
failed extraction it is Rejected carrying the error text. -/
theorem c1_classification (mt : List String) (p msg : String) (e : exif) :
    ((((processFilesStep mt p (Except.ok e)).2.headD []).getD 1 "" = "Accepted" ∧
        ((processFilesStep mt p (Except.ok e)).2.headD []).getD 2 "" = "") ↔
      (e.HasDateCreated = true ∧ (e.HasKeywords = true ∨ e.HasDescription = true))) ∧
    (¬(e.HasDateCreated = true ∧ (e.HasKeywords = true ∨ e.HasDescription = true)) →
      ((processFilesStep mt p (Except.ok e)).2.headD []).getD 1 "" = "Incomplete" ∧
      ((processFilesStep mt p (Except.ok e)).2.headD []).getD 2 "" =
        "Minimum metadata not provided") ∧
    (((processFilesStep mt p (Except.error msg)).2.headD []).getD 1 "" = "Rejected" ∧
      ((processFilesStep mt p (Except.error msg)).2.headD []).getD 2 "" = msg) := by
  cases hc : e.HasDateCreated && (e.HasKeywords || e.HasDescription) with
  | true =>
    have hrow : (processFilesStep mt p (Except.ok e)).2 =
        [rowCells e mt p "Accepted" "" (dcCell e)] := by
      simp [processFilesStep, hc, MakeRow_eq_normal]
    have hcp : e.HasDateCreated = true ∧
        (e.HasKeywords = true ∨ e.HasDescription = true) := by
      simpa [Bool.and_eq_true, Bool.or_eq_true] using hc
    rw [hrow]
    exact ⟨⟨fun _ => hcp, fun _ => ⟨rfl, rfl⟩⟩, fun hn => absurd hcp hn, rfl, rfl⟩
  | false =>
    have hrow : (processFilesStep mt p (Except.ok e)).2 =
        [rowCells e mt p "Incomplete" "Minimum metadata not provided" (dcCell e)] := by
      simp [processFilesStep, hc, MakeRow_eq_normal]
    have hcp : ¬(e.HasDateCreated = true ∧
        (e.HasKeywords = true ∨ e.HasDescription = true)) := by
      intro h1
      have hbt : (e.HasDateCreated && (e.HasKeywords || e.HasDescription)) = true := by
        rcases h1 with ⟨ha, hb | hb⟩ <;> simp [ha, hb]
      rw [hc] at hbt
      exact Bool.false_ne_true hbt
    rw [hrow]
    refine ⟨⟨fun hl => ?_, fun hr => absurd hr hcp⟩, fun _ => ⟨rfl, rfl⟩, rfl, rfl⟩
    exact absurd (show ("Incomplete" : String) = "Accepted" from hl.1) (by decide)

/-- C1 witness: on the empty record the classification is Incomplete, and a
failed extraction yields a Rejected row with the error text. -/
theorem c1_witness :
    (((processFilesStep [] "a" (Except.ok newExif)).2.headD []).getD 1 "" = "Incomplete" ∧
      ((processFilesStep [] "a" (Except.ok newExif)).2.headD []).getD 2 "" =
        "Minimum metadata not provided") ∧
    ((processFilesStep [] "a" (Except.error "boom")).2.headD []).getD 1 "" = "Rejected" :=
  ⟨((c1_classification [] "a" "boom" newExif).2.1 (by decide)),
   ((c1_classification [] "a" "boom" newExif).2.2.1)⟩

/-- The record refuting C5: its file-info MIMEType is outside the set, yet
XMP Format is inside it. -/
def eC5 : exif :=
  ⟨[("MIMEType", "text/plain"), ("FileType", "TXT")], [], [],
   [("Format", "image/png")]⟩

/-- The MIME-type set used for the C5 counterexample. -/
def mtC5 : List String := ["image/png"]

/-- C5 counterexample: a record whose file-info MIMEType is absent from the
set still resolves a non-empty MediaType, because `MediaType` tests the XMP
Format value instead. -/
theorem c5_counterexample :
    mtC5.contains (mapGet eC5.Data "MIMEType") = false ∧
    eC5.MediaType mtC5 = "image" ∧ eC5.MediaType mtC5 ≠ "" ∧
    eC5.FileFormat mtC5 = "" := by
  exact ⟨rfl, rfl, by decide, rfl⟩

/-- C5 amended: when the file-info MIMEType is absent from the set,
FileFormat is always empty, and MediaType is empty provided the XMP Format is
also empty or absent from the set. -/
theorem c5_mime_membership_amended (mt : List String) (e : exif)
    (h : mt.contains (mapGet e.Data "MIMEType") = false) :
    e.FileFormat mt = "" ∧
    ((mapGet e.XMP "Format" = "" ∨ mt.contains (mapGet e.XMP "Format") = false) →
      e.MediaType mt = "") := by
  have hm : mapGet e.Data "MIMEType" ∉ mt := by simpa using h
  constructor
  · simp [exif.FileFormat, hm]
  · intro h2
    unfold exif.MediaType
    by_cases h3 : mapGet e.XMP "Format" = ""
    · simp [h3, hm]
    · rcases h2 with h2 | h2
      · exact absurd h2 h3
      · have hf : mapGet e.XMP "Format" ∉ mt := by simpa using h2
        simp [h3, hf]

/-- C5 witness: a record with an unknown MIMEType and no XMP Format resolves
both fields to empty. -/
theorem c5_amended_witness :
    newExif.FileFormat mtC5 = "" ∧ newExif.MediaType mtC5 = "" :=
  ⟨(c5_mime_membership_amended mtC5 newExif (by decide)).1,
   (c5_mime_membership_amended mtC5 newExif (by decide)).2 (Or.inl (by decide))⟩

/-- The record refuting C6: a non-empty FileName that is nothing but an
extension. -/
def eC6 : exif := ⟨[("FileName", ".jpg")], [], [], []⟩

/-- C6 counterexample: with no namespace field populated and the non-empty
FileName ".jpg", `NasaID` strips the whole name and returns the empty
string. -/
theorem c6_counterexample :
    mapGet eC6.Data "FileName" ≠ "" ∧
    mapGet eC6.IPTC "OriginalTransmissionReference" = "" ∧
    mapGet eC6.IPTC "JobID" = "" ∧
    mapGet eC6.Exif "ImageUniqueID" = "" ∧
    mapGet eC6.XMP "Identifier" = "" ∧
    mapGet eC6.XMP "TransmissionReference" = "" ∧
    eC6.NasaID = "" := by
  exact ⟨by decide, rfl, rfl, rfl, rfl, rfl, rfl⟩

/-- C6 amended: with no namespace field populated, `NasaID` is the FileName
with its extension stripped, and it is non-empty exactly when that stripped
base is non-empty (a dotfile-style name such as ".jpg" yields ""). -/
theorem c6_assetid_fallback_amended (e : exif)
    (h1 : mapGet e.IPTC "OriginalTransmissionReference" = "")
    (h2 : mapGet e.IPTC "JobID" = "")
    (h3 : mapGet e.Exif "ImageUniqueID" = "")
    (h4 : mapGet e.XMP "Identifier" = "")
    (h5 : mapGet e.XMP "TransmissionReference" = "") :
    e.NasaID = String.mk (stripExtension (mapGet e.Data "FileName").data) ∧
    (stripExtension (mapGet e.Data "FileName").data ≠ [] → e.NasaID ≠ "") := by
  have hid : e.NasaID = String.mk (stripExtension (mapGet e.Data "FileName").data) := by
    unfold exif.NasaID
    simp [h1, h2, h3, h4, h5]
  refine ⟨hid, fun hne hcon => hne ?_⟩
  rw [hid] at hcon
  simpa using congrArg String.data hcon

/-- The record used to witness the amended C6: an ordinary file name. -/
def eC6w : exif := ⟨[("FileName", "photo.jpg")], [], [], []⟩

/-- C6 witness: on "photo.jpg" the fallback resolves to the non-empty base
"photo". -/
theorem c6_amended_witness :
    eC6w.NasaID = String.mk (stripExtension (mapGet eC6w.Data "FileName").data) ∧
    eC6w.NasaID ≠ "" :=
  ⟨(c6_assetid_fallback_amended eC6w rfl rfl rfl rfl rfl).1,
   (c6_assetid_fallback_amended eC6w rfl rfl rfl rfl rfl).2 (by decide)⟩

/-- C3: the claim fails on the code.  A collaborator output line shorter than
50 characters (here the empty line, produced whenever the subprocess output
is empty, and a typical short tag line) takes the slice expressions of
`getExifData` out of bounds — `parseLine`'s `none` models the resulting Go
panic, which crashes the run instead of skipping the line. -/
theorem c3_short_line_crash :
    goLineInBounds ("".data) = false ∧
    parseLine ("".data) = none ∧
    parseLine ("[EXIF]          ImageWidth : 4096".data) = none ∧
    getExifData (Except.ok "") = none := by
  exact ⟨rfl, rfl, rfl, rfl⟩

/-- The statistics state refuting C9's intermediate-state invariant:
reachable by scanning one relevant file whose worker finishes before the
scanner's Relevant increment. -/
def badState : PState := ⟨1, 0, 1, 0, 0, ScanPhase.sent⟩

/-- C9 counterexample: an interleaving in which a worker dequeues and rejects
the path before the scanner increments Relevant reaches a state with
Accept + Reject > Relevant. -/
theorem c9_counterexample :
    Reachable badState ∧ ¬(badState.accept + badState.reject ≤ badState.relevant) := by
  constructor
  · have h0 : Reachable ⟨0, 0, 0, 0, 0, ScanPhase.idle⟩ := Reachable.init
    have h1 : Reachable ⟨1, 0, 0, 0, 0, ScanPhase.counted⟩ :=
      Reachable.step h0 (PStep.count _ rfl)
    have h2 : Reachable ⟨1, 0, 0, 0, 1, ScanPhase.sent⟩ :=
      Reachable.step h1 (PStep.send _ rfl)
    exact Reachable.step h2 (PStep.procReject _ (by decide))
  · decide

/-- C9 amended, stated over the program's int32 counter cells via `int32Of`:
on any run in which fewer than 2^31 entries have been counted (so no cell has
wrapped), every reachable state satisfies Relevant ≤ Total and
Accept + Reject ≤ Total, and once the run has completed (the scanner is
between files and the queue is drained) the full invariant Relevant ≤ Total
and Accept + Reject = Relevant (hence ≤ Relevant) holds.  Without the bound
the wrapping cells can violate the inequalities (`int32Of_wraps`), and the
intermediate bound Accept + Reject ≤ Relevant of the original claim fails
even for tiny runs because `makeWalker` sends the path before incrementing
Relevant. -/
theorem c9_stats_amended (st : PState) (h : Reachable st)
    (hb : st.total < 2147483648) :
    (int32Of st.relevant ≤ int32Of st.total ∧
      int32Of st.accept + int32Of st.reject ≤ int32Of st.total) ∧
    (st.phase = ScanPhase.idle → st.queue = 0 →
      int32Of st.relevant ≤ int32Of st.total ∧
      int32Of st.accept + int32Of st.reject = int32Of st.relevant) := by
  obtain ⟨h1, h2⟩ := statsInv h
  have hr : st.relevant < 2147483648 := by omega
  have ha : st.accept < 2147483648 := by omega
  have hj : st.reject < 2147483648 := by omega
  rw [int32Of_of_lt hr, int32Of_of_lt ha, int32Of_of_lt hj, int32Of_of_lt hb]
  constructor
  · constructor
    · exact_mod_cast (show st.relevant ≤ st.total by omega)
    · exact_mod_cast (show st.accept + st.reject ≤ st.total by omega)
  · intro hp hq
    simp only [hp, sentFlag, countedFlag] at h1 h2
    constructor
    · exact_mod_cast (show st.relevant ≤ st.total by omega)
    · exact_mod_cast (show st.accept + st.reject = st.relevant by omega)

/-- C9 witness: the amended invariant at the initial state. -/
theorem c9_amended_witness :
    (int32Of 0 ≤ int32Of 0 ∧ int32Of 0 + int32Of 0 ≤ int32Of 0) ∧
    (int32Of 0 + int32Of 0 = int32Of 0) :=
  ⟨(c9_stats_amended ⟨0, 0, 0, 0, 0, ScanPhase.idle⟩ Reachable.init (by decide)).1,
   ((c9_stats_amended ⟨0, 0, 0, 0, 0, ScanPhase.idle⟩ Reachable.init (by decide)).2
     rfl rfl).2⟩

/-- C7 counterexample: "2015:01:09 01:32:16+08:00" is a well-formed instance
of the offset layout (a trailing sign-prefixed UTC offset, accepted by
`time.Parse` with the exifDateZone layout), yet `parseDate` rejects it: its
hyphen probe sees no '-', dispatches to the offset-less layout, and the
date-only fallback fails too. -/
theorem c7_counterexample :
    (timeParse LayoutKind.dateZone
      (trimSpace ("2015:01:09 01:32:16+08:00").data)).isSome = true ∧
    isOkE (goParseDate "2015:01:09 01:32:16+08:00") = false := by
  exact ⟨by decide, by decide⟩

/-- The layouts the corrected claim asserts `parseDate` accepts: the date-only,
timed and fractional layouts, and the two offset layouts restricted to inputs
that actually contain a '-' (in an offset layout the only position that can
hold '-' is the offset sign, so this restricts to negative offsets). -/
def specLayoutsNegOk (d : List Char) : Prop :=
  (timeParse LayoutKind.dateOnly d).isSome = true ∨
  (timeParse LayoutKind.date d).isSome = true ∨
  (timeParse LayoutKind.nano d).isSome = true ∨
  ((timeParse LayoutKind.dateZone d).isSome = true ∧ hasChar d '-' = true) ∨
  ((timeParse LayoutKind.nanoZone d).isSome = true ∧ hasChar d '-' = true)

/-- C7 amended: after trimming, `parseDate` succeeds exactly on the fixed
layouts whose offset, when present, is negative-signed; the layout is chosen
by probing the string for a decimal point and for a hyphen anywhere, with the
date-only layout as fallback, and every other string (including the
sign-prefixed positive-offset forms) yields an error. -/
theorem c7_parseDate_amended (s : String) :
    isOkE (goParseDate s) = true ↔ specLayoutsNegOk (trimSpace s.data) := by
  rw [goParseDate_isOk_iff]
  unfold specLayoutsNegOk
  constructor
  · rintro (h | h)
    · cases hdot : hasChar (trimSpace s.data) '.' <;>
        cases hdash : hasChar (trimSpace s.data) '-' <;>
          simp only [dispatchKind, hdot, hdash, Bool.false_eq_true, if_false,
            if_true] at h
      · exact Or.inr (Or.inl h)
      · exact Or.inr (Or.inr (Or.inr (Or.inl ⟨h, rfl⟩)))
      · exact Or.inr (Or.inr (Or.inl h))
      · exact Or.inr (Or.inr (Or.inr (Or.inr ⟨h, rfl⟩)))
    · exact Or.inl h
  · rintro (h | h | h | ⟨h, hdash⟩ | ⟨h, hdash⟩)
    · exact Or.inr h
    · left
      have hm := ((timeParse_isSome_iff LayoutKind.date _).mp h).1
      have hdot : hasChar (trimSpace s.data) '.' = false :=
        hasChar_false_of_match hm (by decide)
      have hdash : hasChar (trimSpace s.data) '-' = false :=
        hasChar_false_of_match hm (by decide)
      simpa [dispatchKind, hdot, hdash] using h
    · left
      have hm := ((timeParse_isSome_iff LayoutKind.nano _).mp h).1
      have hdot : hasChar (trimSpace s.data) '.' = true :=
        hasChar_true_of_match hm (by decide)
      have hdash : hasChar (trimSpace s.data) '-' = false :=
        hasChar_false_of_match hm (by decide)
      simpa [dispatchKind, hdot, hdash] using h
    · left
      have hm := ((timeParse_isSome_iff LayoutKind.dateZone _).mp h).1
      have hdot : hasChar (trimSpace s.data) '.' = false :=
        hasChar_false_of_match hm (by decide)
      simpa [dispatchKind, hdot, hdash] using h
    · left
      have hm := ((timeParse_isSome_iff LayoutKind.nanoZone _).mp h).1
      have hdot : hasChar (trimSpace s.data) '.' = true :=
        hasChar_true_of_match hm (by decide)
      simpa [dispatchKind, hdot, hdash] using h

/-- C7 witness: a plain timed layout parses, a positive-offset string fails. -/
theorem c7_amended_witness :
    isOkE (goParseDate "2015:01:09 01:32:16") = true ∧
    isOkE (goParseDate " 2015:01:09 ") = true :=
  ⟨(c7_parseDate_amended "2015:01:09 01:32:16").mpr (Or.inr (Or.inl (by decide))),
   (c7_parseDate_amended " 2015:01:09 ").mpr (Or.inl (by decide))⟩
